import Mathlib

/-!
Verification of the progpow-rust kernel generator and compute engine.

This file gives a shallow embedding, over `Nat` with explicit reduction
modulo `2^32` where 32-bit overflow matters, of the parts of the
progpow-rust repository that the audited claims are about:

* `src/src/generator.rs`: the KISS99 generator (`Kiss99::rnd`), the
  FNV-1a fold (`fnv1a`), the schedule derivation shared by
  `generate_cuda_kernel` / `get_code` and `generate_opencl_kernel`
  (Fisher-Yates register shuffles and the cache/math/DAG operation
  selections), the `merge` and `math` fragment selectors, the fast-modulo
  constant derivation (`calculate_fast_mod_data`) and the fragments the
  generators substitute into the kernel templates (modulo logic, KISS99
  update order, hash-seed extraction, initial padding).
* `src/src/lib.rs`: `generate_cdag`.
* `src/src/hardware/cpu.rs`: the control flow of `PpCPU::verify`.
* `src/pp_full/src/types.rs`: the uninitialized-miner guards of
  `GPU::compute` and `GPU::solutions`.

Code of the repository that lives in the `progpow_base` / `progpow_cpu`
crates (variant parameter records, `prog_seed`, `calculate_dag_item`,
the cache builder internals) is not under `src/`; where a claim needs
it, it is modelled from the spec and marked as such in its doc comment.
-/

namespace ProgPow

/-- 2^32, the modulus of `u32` arithmetic. -/
def U32 : Nat := 4294967296

/-- KISS99 state, from `struct Kiss99 { z, w, jsr, jcong }` in
`src/src/generator.rs`. -/
structure Kiss99 where
  z : Nat
  w : Nat
  jsr : Nat
  jcong : Nat
deriving DecidableEq

/-- `Kiss99::rnd` (src/src/generator.rs lines 27-43).  The Rust method
takes an `_is_zano: bool` argument that it ignores ("All ProgPow
variants use the same SHR3 shifts: 17, 13, 5"); the embedding drops the
ignored argument.  `wrapping_mul`/`wrapping_add` and the `u32` left
shifts reduce modulo `2^32`. -/
def Kiss99.rnd (s : Kiss99) : Kiss99 × Nat :=
  let z := (36969 * (s.z &&& 65535) + (s.z >>> 16)) % U32
  let w := (18000 * (s.w &&& 65535) + (s.w >>> 16)) % U32
  let mwc := ((z <<< 16) % U32 + w) % U32
  let jcong := (s.jcong * 69069 + 1234567) % U32
  let jsr1 := s.jsr ^^^ ((s.jsr <<< 17) % U32)
  let jsr2 := jsr1 ^^^ (jsr1 >>> 13)
  let jsr := jsr2 ^^^ ((jsr2 <<< 5) % U32)
  (⟨z, w, jsr, jcong⟩, ((mwc ^^^ jcong) + jsr) % U32)

/-- `fnv1a` (src/src/generator.rs lines 47-50): returns the new value of
the running hash. -/
def fnv1a (h d : Nat) : Nat := ((h ^^^ d) * 0x1000193) % U32

/-- `Vec::swap(i, j)` on a `Vec` of register indices. -/
def listSwap (l : List Nat) (i j : Nat) : List Nat :=
  (l.set i (l.getD j 0)).set j (l.getD i 0)

/-- One iteration of the Fisher-Yates loop in `get_code`
(src/src/generator.rs lines 204-209): at index `i`, draw `j` for
`mix_seq_dst`, swap, then draw `j` for `mix_seq_cache`, swap. -/
def shuffleStep (st : Kiss99) (dst cache : List Nat) (i : Nat) :
    Kiss99 × List Nat × List Nat :=
  let t1 := st.rnd
  let dst' := listSwap dst i (t1.2 % (i + 1))
  let t2 := t1.1.rnd
  let cache' := listSwap cache i (t2.2 % (i + 1))
  (t2.1, dst', cache')

/-- The Fisher-Yates loop `for i in (1..PROGPOW_REGS).rev()` of
`get_code`; the argument counts down from 31 to 1. -/
def shuffleLoop : Nat → Kiss99 → List Nat → List Nat → Kiss99 × List Nat × List Nat
  | 0, st, dst, cache => (st, dst, cache)
  | i + 1, st, dst, cache =>
    let t := shuffleStep st dst cache (i + 1)
    shuffleLoop i t.1 t.2.1 t.2.2

/-- One selected operation of the randomized schedule, recording the
register indices and raw PRNG draws that `get_code` embeds in the
emitted fragments. -/
inductive ScheduleOp where
  | cacheLoad (src dst r : Nat)
  | mathSel (src1 src2 r1 dst r2 : Nat)
  | dagLoad (dst r : Nat)
deriving DecidableEq

/-- State threaded through the main loop of `get_code`: the PRNG, the
two sequence counters and the operations selected so far. -/
structure LoopState where
  rng : Kiss99
  dstCnt : Nat
  cacheCnt : Nat
  ops : List ScheduleOp
deriving DecidableEq

/-- The cache-load sub-block of the loop body of `get_code`
(src/src/generator.rs lines 227-238): source register from
`mix_seq_cache`, destination from `mix_seq_dst`, then one draw for the
merge selector. -/
def cacheStep (seqDst seqCache : List Nat) (s : LoopState) : LoopState :=
  let src := seqCache.getD (s.cacheCnt % 32) 0
  let dst := seqDst.getD (s.dstCnt % 32) 0
  let t := s.rng.rnd
  { rng := t.1, dstCnt := s.dstCnt + 1, cacheCnt := s.cacheCnt + 1,
    ops := s.ops ++ [.cacheLoad src dst t.2] }

/-- The math sub-block of the loop body (src/src/generator.rs lines
240-259): `src_rnd = rnd() % ((PROGPOW_REGS-1)*PROGPOW_REGS)`,
`src1 = src_rnd % PROGPOW_REGS`, `src2 = src_rnd / PROGPOW_REGS`
incremented when `src2 >= src1`, then the opcode draw, the destination
from `mix_seq_dst` and the merge draw. -/
def mathStep (seqDst : List Nat) (s : LoopState) : LoopState :=
  let t0 := s.rng.rnd
  let srcRnd := t0.2 % (31 * 32)
  let src1 := srcRnd % 32
  let src2p := srcRnd / 32
  let src2 := if src1 ≤ src2p then src2p + 1 else src2p
  let t1 := t0.1.rnd
  let dst := seqDst.getD (s.dstCnt % 32) 0
  let t2 := t1.1.rnd
  { rng := t2.1, dstCnt := s.dstCnt + 1, cacheCnt := s.cacheCnt,
    ops := s.ops ++ [.mathSel src1 src2 t1.2 dst t2.2] }

/-- Body of `for i in 0..max_ops` in `get_code`
(src/src/generator.rs lines 226-260): a cache load when
`i < cnt_cache`, then a math operation when `i < cnt_math`. -/
def opsBody (seqDst seqCache : List Nat) (cntCache cntMath i : Nat)
    (s : LoopState) : LoopState :=
  let s1 := if i < cntCache then cacheStep seqDst seqCache s else s
  if i < cntMath then mathStep seqDst s1 else s1

/-- The loop `for i in 0..max_ops` of `get_code`; `i` is the loop index
and the first argument the number of remaining iterations. -/
def opsLoop (seqDst seqCache : List Nat) (cntCache cntMath : Nat) :
    Nat → Nat → LoopState → LoopState
  | _, 0, s => s
  | i, c + 1, s =>
    opsLoop seqDst seqCache cntCache cntMath (i + 1) c
      (opsBody seqDst seqCache cntCache cntMath i s)

/-- The DAG-load tail of `get_code` (src/src/generator.rs lines
262-269): `for i in 1..PROGPOW_DAG_LOADS`, destination from
`mix_seq_dst` and one draw for the merge selector. -/
def dagLoadsLoop (seqDst : List Nat) : Nat → LoopState → LoopState
  | 0, s => s
  | c + 1, s =>
    let dst := seqDst.getD (s.dstCnt % 32) 0
    let t := s.rng.rnd
    dagLoadsLoop seqDst c
      { rng := t.1, dstCnt := s.dstCnt + 1, cacheCnt := s.cacheCnt,
        ops := s.ops ++ [.dagLoad dst t.2] }

/-- The result of the schedule derivation: the two Fisher-Yates
permutations and the operation selections, in emission order. -/
structure ProgSchedule where
  seqDst : List Nat
  seqCache : List Nat
  ops : List ScheduleOp
deriving DecidableEq

/-- The seeded part of `get_code` (src/src/generator.rs lines 199-269):
Fisher-Yates shuffle `mix_seq_dst` and `mix_seq_cache`, run the
cache/math loop for `max(cnt_cache, cnt_math)` iterations, then
`merge(mix[0], data_dag.s[0], rnd())` followed by three further DAG
loads driven by `mix_seq_dst`. -/
def schedulePipeline (st0 : Kiss99) (cntCache cntMath : Nat) : ProgSchedule :=
  let t := shuffleLoop 31 st0 (List.range 32) (List.range 32)
  let s := opsLoop t.2.1 t.2.2 cntCache cntMath 0 (max cntCache cntMath)
    ⟨t.1, 0, 0, []⟩
  let d0 := s.rng.rnd
  let s' := dagLoadsLoop t.2.1 3
    ⟨d0.1, s.dstCnt, s.cacheCnt, s.ops ++ [.dagLoad 0 d0.2]⟩
  ⟨t.2.1, t.2.2, s'.ops⟩

/-- The schedule derived by `get_code` (src/src/generator.rs lines
182-274), called by `generate_cuda_kernel`: seed the KISS99 PRNG by
four chained FNV-1a folds of the program-seed halves, then run the
shuffle / operation-selection pipeline. -/
def get_code (cntCache cntMath progSeed : Nat) : ProgSchedule :=
  let seed0 := progSeed % U32
  let seed1 := (progSeed >>> 32) % U32
  let z := fnv1a 0x811c9dc5 seed0
  let w := fnv1a z seed1
  let jsr := fnv1a w seed0
  let jcong := fnv1a jsr seed1
  schedulePipeline ⟨z, w, jsr, jcong⟩ cntCache cntMath

/-- The Fisher-Yates loop of `generate_opencl_kernel`
(src/src/generator.rs lines 391-396), a textual copy of the one in
`get_code`. -/
def openclShuffleLoop : Nat → Kiss99 → List Nat → List Nat → Kiss99 × List Nat × List Nat
  | 0, st, dst, cache => (st, dst, cache)
  | i + 1, st, dst, cache =>
    let t := shuffleStep st dst cache (i + 1)
    openclShuffleLoop i t.1 t.2.1 t.2.2

/-- Body of `for i in 0..max_ops` in `generate_opencl_kernel`
(src/src/generator.rs lines 489-520), a textual copy of the loop body
of `get_code`. -/
def openclOpsBody (seqDst seqCache : List Nat) (cntCache cntMath i : Nat)
    (s : LoopState) : LoopState :=
  let s1 := if i < cntCache then cacheStep seqDst seqCache s else s
  if i < cntMath then mathStep seqDst s1 else s1

/-- The cache/math loop of `generate_opencl_kernel`. -/
def openclOpsLoop (seqDst seqCache : List Nat) (cntCache cntMath : Nat) :
    Nat → Nat → LoopState → LoopState
  | _, 0, s => s
  | i, c + 1, s =>
    openclOpsLoop seqDst seqCache cntCache cntMath (i + 1) c
      (openclOpsBody seqDst seqCache cntCache cntMath i s)

/-- The DAG-load tail of `generate_opencl_kernel`
(src/src/generator.rs lines 523-529). -/
def openclDagLoadsLoop (seqDst : List Nat) : Nat → LoopState → LoopState
  | 0, s => s
  | c + 1, s =>
    let dst := seqDst.getD (s.dstCnt % 32) 0
    let t := s.rng.rnd
    openclDagLoadsLoop seqDst c
      { rng := t.1, dstCnt := s.dstCnt + 1, cacheCnt := s.cacheCnt,
        ops := s.ops ++ [.dagLoad dst t.2] }

/-- The seeded part of the schedule derivation inlined in
`generate_opencl_kernel` (src/src/generator.rs lines 385-396 and
488-529), a textual copy of the pipeline in `get_code`. -/
def openclSchedulePipeline (st0 : Kiss99) (cntCache cntMath : Nat) : ProgSchedule :=
  let t := openclShuffleLoop 31 st0 (List.range 32) (List.range 32)
  let s := openclOpsLoop t.2.1 t.2.2 cntCache cntMath 0 (max cntCache cntMath)
    ⟨t.1, 0, 0, []⟩
  let d0 := s.rng.rnd
  let s' := openclDagLoadsLoop t.2.1 3
    ⟨d0.1, s.dstCnt, s.cacheCnt, s.ops ++ [.dagLoad 0 d0.2]⟩
  ⟨t.2.1, t.2.2, s'.ops⟩

/-- The schedule derivation inlined in `generate_opencl_kernel`
(src/src/generator.rs lines 375-396 and 488-529). -/
def openclSchedule (cntCache cntMath progSeed : Nat) : ProgSchedule :=
  let seed0 := progSeed % U32
  let seed1 := (progSeed >>> 32) % U32
  let z := fnv1a 0x811c9dc5 seed0
  let w := fnv1a z seed1
  let jsr := fnv1a w seed0
  let jcong := fnv1a jsr seed1
  openclSchedulePipeline ⟨z, w, jsr, jcong⟩ cntCache cntMath

/-- The schedule embedded by `generate_cuda_kernel(period, _height)`:
line 59 recomputes `prog_seed = P::prog_seed(_height)` from the height
and passes it to `get_code` (line 65); the `period` argument does not
enter the schedule.  The variant's program-seed derivation lives in the
`progpow_base` crate, which is not under `src/`, so it is abstracted as
the function argument `progSeedFn`. -/
def generate_cuda_kernel_schedule (progSeedFn : Nat → Nat)
    (period height cntCache cntMath : Nat) : ProgSchedule :=
  let _ := period
  get_code cntCache cntMath (progSeedFn height)

/-- The schedule embedded by `generate_opencl_kernel(period, _height)`:
line 370 sets `prog_seed = period`, using the argument directly. -/
def generate_opencl_kernel_schedule (period height cntCache cntMath : Nat) :
    ProgSchedule :=
  let _ := height
  openclSchedule cntCache cntMath period

/-- Sanity vector, cross-checked against an independent execution of the
Rust schedule derivation: the first entries of `mix_seq_dst` for program
seed 0. -/
example : (get_code 0 0 0).seqDst.take 6 = [18, 31, 13, 19, 3, 22] := by decide

theorem openclShuffleLoop_eq (k : Nat) :
    ∀ st dst cache, openclShuffleLoop k st dst cache = shuffleLoop k st dst cache := by
  induction k with
  | zero => intro st dst cache; rfl
  | succ n ih =>
    intro st dst cache
    simp only [openclShuffleLoop, shuffleLoop]
    exact ih _ _ _

theorem openclOpsBody_eq : @openclOpsBody = @opsBody := rfl

theorem openclOpsLoop_eq_opsLoop (seqDst seqCache : List Nat) (cntCache cntMath : Nat)
    (c : Nat) : ∀ i s, openclOpsLoop seqDst seqCache cntCache cntMath i c s
      = opsLoop seqDst seqCache cntCache cntMath i c s := by
  induction c with
  | zero => intro i s; rfl
  | succ n ih =>
    intro i s
    simp only [openclOpsLoop, opsLoop, openclOpsBody_eq]
    exact ih _ _

theorem openclDagLoadsLoop_eq (seqDst : List Nat) (c : Nat) :
    ∀ s, openclDagLoadsLoop seqDst c s = dagLoadsLoop seqDst c s := by
  induction c with
  | zero => intro s; rfl
  | succ n ih =>
    intro s
    simp only [openclDagLoadsLoop, dagLoadsLoop]
    exact ih _

theorem openclSchedule_eq_get_code (cntCache cntMath progSeed : Nat) :
    openclSchedule cntCache cntMath progSeed = get_code cntCache cntMath progSeed := by
  simp only [openclSchedule, get_code, openclSchedulePipeline, schedulePipeline,
    openclShuffleLoop_eq, openclOpsLoop_eq_opsLoop, openclDagLoadsLoop_eq]

/-- Claim C1 as stated is false: the CUDA generator derives its schedule
from `P::prog_seed(_height)` while the OpenCL generator uses the
`period` argument directly, so for a variant whose program-seed map
sends every height to 0, the two generators called with
`(period, height) = (1, 0)` shuffle from different seeds and produce
different register permutations and operation selections. -/
theorem C1_counterexample :
    generate_cuda_kernel_schedule (fun _ => 0) 1 0 0 0
      ≠ generate_opencl_kernel_schedule 1 0 0 0 := by decide

/-- Claim C1, amended: whenever the `period` argument passed to the
generators equals the variant's derived program seed for the height (in
particular whenever the caller passes the program seed as `period`),
`generate_cuda_kernel` and `generate_opencl_kernel` derive their
randomized schedules from the same program seed and produce identical
Fisher-Yates register permutations (`mix_seq_dst`, `mix_seq_cache`) and
the identical sequence of cache-load, math and DAG-load operation
selections, step for step, for every variant's operation counts. -/
theorem C1_cuda_opencl_schedule_agree (progSeedFn : Nat → Nat)
    (period height cntCache cntMath : Nat) (h : period = progSeedFn height) :
    generate_cuda_kernel_schedule progSeedFn period height cntCache cntMath
      = generate_opencl_kernel_schedule period height cntCache cntMath := by
  subst h
  unfold generate_cuda_kernel_schedule generate_opencl_kernel_schedule
  exact (openclSchedule_eq_get_code _ _ _).symm

theorem C1_witness :
    (5 : Nat) = (fun _ => 5 : Nat → Nat) 0 ∧
      generate_cuda_kernel_schedule (fun _ => 5) 5 0 1 1
        = generate_opencl_kernel_schedule 5 0 1 1 :=
  ⟨rfl, C1_cuda_opencl_schedule_agree (fun _ => 5) 5 0 1 1 rfl⟩

/-- The shape of the fragment emitted by `merge(a, b, r)`
(src/src/generator.rs lines 301-321), with the rotate amount recorded
for the two rotate forms.  `errorMark` stands for the `"#error"`
fallback arm. -/
inductive MergeForm where
  | mulAdd
  | xorMul
  | rotlXor (k : Nat)
  | rotrXor (k : Nat)
  | errorMark
deriving DecidableEq

/-- `merge` (src/src/generator.rs lines 301-321): the fragment form is
selected by `r % 4`; the rotate amount is `((r >> 16) % 31) + 1`. -/
def merge (r : Nat) : MergeForm :=
  match r % 4 with
  | 0 => .mulAdd
  | 1 => .xorMul
  | 2 => .rotlXor ((r >>> 16) % 31 + 1)
  | 3 => .rotrXor ((r >>> 16) % 31 + 1)
  | _ => .errorMark

/-- The opcode of the fragment emitted by `math(d, a, b, r, mapping)`
(src/src/generator.rs lines 323-353).  The `rotl`/`rotr` opcodes cover
both textual spellings of the shift-amount reduction (`b % 32` in the
Standard/KawPow table, `b & 31` in the Zano table), which agree on
`u32` values. -/
inductive MathOp where
  | addOp
  | mulOp
  | mulHiOp
  | minOp
  | rotlOp
  | rotrOp
  | andOp
  | orOp
  | xorOp
  | clzOp
  | popcountOp
deriving DecidableEq

/-- `MathMapping` of the `progpow_base` crate.  Modelled from the spec:
the variant parameter set has "a math-operation-ordering selector
(`Standard`, `KawPow`, `Zano`)"; `src/src/generator.rs` matches on
exactly these three constructors. -/
inductive MathMapping where
  | standard
  | kawpow
  | zano
deriving DecidableEq

/-- `math` (src/src/generator.rs lines 323-353): an 11-way opcode choice
by `r % 11`, with one arm for `Standard | KawPow` and one for `Zano`. -/
def math (r : Nat) (mapping : MathMapping) : MathOp :=
  match mapping with
  | .standard | .kawpow =>
    match r % 11 with
    | 0 => .addOp
    | 1 => .mulOp
    | 2 => .mulHiOp
    | 3 => .minOp
    | 4 => .rotlOp
    | 5 => .rotrOp
    | 6 => .andOp
    | 7 => .orOp
    | 8 => .xorOp
    | 9 => .clzOp
    | _ => .popcountOp
  | .zano =>
    match r % 11 with
    | 0 => .clzOp
    | 1 => .popcountOp
    | 2 => .addOp
    | 3 => .mulOp
    | 4 => .mulHiOp
    | 5 => .minOp
    | 6 => .rotlOp
    | 7 => .rotrOp
    | 8 => .andOp
    | 9 => .orOp
    | _ => .xorOp

/-- Spec-side list of the four merge forms for a draw `r`, in selector
order, for comparison with the `merge` selection. -/
def specMergeTable (r : Nat) : List MergeForm :=
  [.mulAdd, .xorMul, .rotlXor ((r >>> 16) % 31 + 1), .rotrXor ((r >>> 16) % 31 + 1)]

/-- Spec-side 11-way opcode tables: one shared by Standard and KawPow,
the other for Zano, indexed by `r % 11`. -/
def specMathTable : MathMapping → List MathOp
  | .standard | .kawpow =>
    [.addOp, .mulOp, .mulHiOp, .minOp, .rotlOp, .rotrOp, .andOp, .orOp,
      .xorOp, .clzOp, .popcountOp]
  | .zano =>
    [.clzOp, .popcountOp, .addOp, .mulOp, .mulHiOp, .minOp, .rotlOp,
      .rotrOp, .andOp, .orOp, .xorOp]

/-- Claim C6: for every 32-bit draw `r`, the merge fragment is selected
by `r % 4` among exactly the four forms `a=(a*33)+b`, `a=(a^b)*33`,
`a=rotl(a,k)^b`, `a=rotr(a,k)^b` with `k = ((r>>16)%31)+1` (so the
`#error` arm is never selected), and the math fragment is selected by
`r % 11` from one of two fixed 11-way opcode tables, where Standard and
KawPow share one table and Zano uses the other. -/
theorem C6_merge_math_selection :
    (∀ r : Nat, merge r = (specMergeTable r).getD (r % 4) .errorMark
      ∧ merge r ≠ .errorMark)
    ∧ (∀ (r : Nat) (m : MathMapping),
        math r m = (specMathTable m).getD (r % 11) .xorOp)
    ∧ specMathTable .standard = specMathTable .kawpow
    ∧ specMathTable .standard ≠ specMathTable .zano := by
  refine ⟨fun r => ?_, fun r m => ?_, rfl, by decide⟩
  · have h4 : r % 4 = 0 ∨ r % 4 = 1 ∨ r % 4 = 2 ∨ r % 4 = 3 := by omega
    unfold merge specMergeTable
    rcases h4 with h | h | h | h <;> rw [h] <;> exact ⟨rfl, by simp⟩
  · have h11 : r % 11 = 0 ∨ r % 11 = 1 ∨ r % 11 = 2 ∨ r % 11 = 3 ∨ r % 11 = 4
        ∨ r % 11 = 5 ∨ r % 11 = 6 ∨ r % 11 = 7 ∨ r % 11 = 8 ∨ r % 11 = 9
        ∨ r % 11 = 10 := by omega
    cases m <;> unfold math specMathTable <;>
      rcases h11 with h | h | h | h | h | h | h | h | h | h | h <;> rw [h] <;> rfl

/-- `opOk op` states that every register index recorded in a schedule
operation is a legal `mix` index (below `PROGPOW_REGS = 32`) and that
the two math source registers are distinct. -/
def opOk : ScheduleOp → Prop
  | .cacheLoad src dst _ => src < 32 ∧ dst < 32
  | .mathSel src1 src2 _ dst _ => src1 < 32 ∧ src2 < 32 ∧ src1 ≠ src2 ∧ dst < 32
  | .dagLoad dst _ => dst < 32

instance (op : ScheduleOp) : Decidable (opOk op) := by
  cases op <;> · unfold opOk; infer_instance

theorem getD_lt_32 {l : List Nat} (h : ∀ x ∈ l, x < 32) (i : Nat) :
    l.getD i 0 < 32 := by
  by_cases hi : i < l.length
  · rw [List.getD_eq_getElem l 0 hi]
    exact h _ (List.getElem_mem hi)
  · rw [List.getD_eq_default l 0 (by omega)]
    omega

theorem mem_listSwap_lt {l : List Nat} (h : ∀ x ∈ l, x < 32) (i j : Nat) :
    ∀ x ∈ listSwap l i j, x < 32 := by
  intro x hx
  unfold listSwap at hx
  rcases List.mem_or_eq_of_mem_set hx with hx' | rfl
  · rcases List.mem_or_eq_of_mem_set hx' with hx'' | rfl
    · exact h _ hx''
    · exact getD_lt_32 h j
  · exact getD_lt_32 h i

theorem shuffleLoop_mem (k : Nat) :
    ∀ st dst cache, (∀ x ∈ dst, x < 32) → (∀ x ∈ cache, x < 32) →
      (∀ x ∈ (shuffleLoop k st dst cache).2.1, x < 32)
        ∧ (∀ x ∈ (shuffleLoop k st dst cache).2.2, x < 32) := by
  induction k with
  | zero => intro st dst cache h1 h2; exact ⟨h1, h2⟩
  | succ n ih =>
    intro st dst cache h1 h2
    simp only [shuffleLoop]
    exact ih _ _ _ (mem_listSwap_lt h1 _ _) (mem_listSwap_lt h2 _ _)

theorem cacheStep_ok {seqDst seqCache : List Nat} (hd : ∀ x ∈ seqDst, x < 32)
    (hc : ∀ x ∈ seqCache, x < 32) {s : LoopState}
    (hs : ∀ op ∈ s.ops, opOk op) :
    ∀ op ∈ (cacheStep seqDst seqCache s).ops, opOk op := by
  intro op hop
  rcases List.mem_append.mp hop with h | h
  · exact hs _ h
  · rcases List.mem_singleton.mp h with rfl
    exact ⟨getD_lt_32 hc _, getD_lt_32 hd _⟩

theorem mathStep_ok {seqDst : List Nat} (hd : ∀ x ∈ seqDst, x < 32)
    {s : LoopState} (hs : ∀ op ∈ s.ops, opOk op) :
    ∀ op ∈ (mathStep seqDst s).ops, opOk op := by
  intro op hop
  rcases List.mem_append.mp hop with h | h
  · exact hs _ h
  · rcases List.mem_singleton.mp h with rfl
    refine ⟨by omega, ?_, ?_, getD_lt_32 hd _⟩ <;> · split <;> omega

theorem opsBody_ok {seqDst seqCache : List Nat} (hd : ∀ x ∈ seqDst, x < 32)
    (hc : ∀ x ∈ seqCache, x < 32) (cntCache cntMath i : Nat) {s : LoopState}
    (hs : ∀ op ∈ s.ops, opOk op) :
    ∀ op ∈ (opsBody seqDst seqCache cntCache cntMath i s).ops, opOk op := by
  have hs1 : ∀ op ∈ (if i < cntCache then cacheStep seqDst seqCache s else s).ops,
      opOk op := by
    split
    · exact cacheStep_ok hd hc hs
    · exact hs
  simp only [opsBody]
  split
  · exact mathStep_ok hd hs1
  · exact hs1

theorem opsLoop_ok {seqDst seqCache : List Nat} (hd : ∀ x ∈ seqDst, x < 32)
    (hc : ∀ x ∈ seqCache, x < 32) (cntCache cntMath : Nat) (c : Nat) :
    ∀ i s, (∀ op ∈ s.ops, opOk op) →
      ∀ op ∈ (opsLoop seqDst seqCache cntCache cntMath i c s).ops, opOk op := by
  induction c with
  | zero => intro i s hs; exact hs
  | succ n ih =>
    intro i s hs
    simp only [opsLoop]
    exact ih _ _ (opsBody_ok hd hc cntCache cntMath i hs)

theorem dagLoadsLoop_ok {seqDst : List Nat} (hd : ∀ x ∈ seqDst, x < 32)
    (c : Nat) : ∀ s, (∀ op ∈ s.ops, opOk op) →
      ∀ op ∈ (dagLoadsLoop seqDst c s).ops, opOk op := by
  induction c with
  | zero => intro s hs; exact hs
  | succ n ih =>
    intro s hs
    simp only [dagLoadsLoop]
    refine ih _ (fun op hop => ?_)
    rcases List.mem_append.mp hop with h | h
    · exact hs _ h
    · rcases List.mem_singleton.mp h with rfl
      exact getD_lt_32 hd _

theorem schedulePipeline_ok (st0 : Kiss99) (cntCache cntMath : Nat) :
    (∀ x ∈ (schedulePipeline st0 cntCache cntMath).seqDst, x < 32)
    ∧ (∀ x ∈ (schedulePipeline st0 cntCache cntMath).seqCache, x < 32)
    ∧ (∀ op ∈ (schedulePipeline st0 cntCache cntMath).ops, opOk op) := by
  have hrange : ∀ x ∈ List.range 32, x < 32 := fun x hx => List.mem_range.mp hx
  have hmem := shuffleLoop_mem 31 st0 (List.range 32) (List.range 32) hrange hrange
  simp only [schedulePipeline]
  refine ⟨hmem.1, hmem.2, ?_⟩
  refine dagLoadsLoop_ok hmem.1 3 _ (fun op hop => ?_)
  rcases List.mem_append.mp hop with h | h
  · exact opsLoop_ok hmem.1 hmem.2 cntCache cntMath _ _ _ (by simp) _ h
  · rcases List.mem_singleton.mp h with rfl
    exact (by omega : (0 : Nat) < 32)

/-- Claim C10: for every variant's operation counts and every program
seed, every register index in the derived schedule is in range `0..31`
(destination and cache-source indices come from the 32-element
permutations, and the math source indices are distinct and both below
32), and the `#error` fallback arm of `merge` is unreachable since
`r % 4` always lies in `{0,1,2,3}`; hence the generated source contains
no out-of-range register reference and no `#error` token. -/
theorem C10_regs_in_range (cntCache cntMath progSeed : Nat) :
    (∀ x ∈ (get_code cntCache cntMath progSeed).seqDst, x < 32)
    ∧ (∀ x ∈ (get_code cntCache cntMath progSeed).seqCache, x < 32)
    ∧ (∀ op ∈ (get_code cntCache cntMath progSeed).ops, opOk op)
    ∧ (∀ r : Nat, merge r ≠ .errorMark) := by
  have hp := schedulePipeline_ok
    ⟨fnv1a 0x811c9dc5 (progSeed % U32),
      fnv1a (fnv1a 0x811c9dc5 (progSeed % U32)) ((progSeed >>> 32) % U32),
      fnv1a (fnv1a (fnv1a 0x811c9dc5 (progSeed % U32)) ((progSeed >>> 32) % U32))
        (progSeed % U32),
      fnv1a (fnv1a (fnv1a (fnv1a 0x811c9dc5 (progSeed % U32)) ((progSeed >>> 32) % U32))
        (progSeed % U32)) ((progSeed >>> 32) % U32)⟩
    cntCache cntMath
  refine ⟨hp.1, hp.2.1, hp.2.2, fun r => ?_⟩
  have h4 : r % 4 = 0 ∨ r % 4 = 1 ∨ r % 4 = 2 ∨ r % 4 = 3 := by omega
  unfold merge
  rcases h4 with h | h | h | h <;> rw [h] <;> simp

theorem C10_witness :
    opOk ((get_code 1 1 0).ops.getD 0 (.dagLoad 0 0)) ∧
      merge 7 ≠ MergeForm.errorMark :=
  ⟨(C10_regs_in_range 1 1 0).2.2.1 _ (by decide), (C10_regs_in_range 1 1 0).2.2.2 7⟩

/-- The KISS99 update fragment substituted by `generate_cuda_kernel`
(src/src/generator.rs lines 154-159), the same text for every variant:
update `jcong`, then the `jsr` shifts 17, 13, 5. -/
def cudaKissLogic (st : Kiss99) : Kiss99 :=
  let jcong := (69069 * st.jcong + 1234567) % U32
  let jsr1 := st.jsr ^^^ ((st.jsr <<< 17) % U32)
  let jsr2 := jsr1 ^^^ (jsr1 >>> 13)
  let jsr := jsr2 ^^^ ((jsr2 <<< 5) % U32)
  { st with jcong := jcong, jsr := jsr }

/-- The Zano branch of the KISS99 fragment in `generate_opencl_kernel`
(src/src/generator.rs lines 447-452): update `jcong`, then `jsr ^=
jsr << 13`, `jsr ^= jsr >> 17`, `jsr ^= jsr << 5`. -/
def openclZanoKissLogic (st : Kiss99) : Kiss99 :=
  let jcong := (69069 * st.jcong + 1234567) % U32
  let jsr1 := st.jsr ^^^ ((st.jsr <<< 13) % U32)
  let jsr2 := jsr1 ^^^ (jsr1 >>> 17)
  let jsr := jsr2 ^^^ ((jsr2 <<< 5) % U32)
  { st with jcong := jcong, jsr := jsr }

/-- The non-Zano branch of the KISS99 fragment in
`generate_opencl_kernel` (src/src/generator.rs lines 454-459): `jsr`
shifts 17, 13, 5, then update `jcong`. -/
def openclCommonKissLogic (st : Kiss99) : Kiss99 :=
  let jsr1 := st.jsr ^^^ ((st.jsr <<< 17) % U32)
  let jsr2 := jsr1 ^^^ (jsr1 >>> 13)
  let jsr := jsr2 ^^^ ((jsr2 <<< 5) % U32)
  let jcong := (69069 * st.jcong + 1234567) % U32
  { st with jsr := jsr, jcong := jcong }

/-- The fragment selection in `generate_opencl_kernel`
(src/src/generator.rs line 446): the Zano branch when `is_zano`,
otherwise the common branch. -/
def openclKissLogic (isZano : Bool) : Kiss99 → Kiss99 :=
  if isZano then openclZanoKissLogic else openclCommonKissLogic

/-- The generated device function `kiss99(st)` (CUDA template lines
801-811, OpenCL emission lines 462-470): update `z` and `w`, form
`MWC`, run the substituted update fragment, return
`(MWC ^ jcong) + jsr`. -/
def kiss99Device (logic : Kiss99 → Kiss99) (st : Kiss99) : Kiss99 × Nat :=
  let z := (36969 * (st.z &&& 65535) + (st.z >>> 16)) % U32
  let w := (18000 * (st.w &&& 65535) + (st.w >>> 16)) % U32
  let mwc := ((z <<< 16) % U32 + w) % U32
  let st2 := logic { st with z := z, w := w }
  (st2, ((mwc ^^^ st2.jcong) + st2.jsr) % U32)

set_option maxRecDepth 8000 in
/-- Claim C3 as stated is false: for the Zano variant the OpenCL
generator substitutes a fragment whose `jsr` shifts are 13, 17, 5,
which does not compute the host sequence of `Kiss99::rnd` (shifts 17,
13, 5): at state `(1,1,1,1)` the two differ. -/
theorem C3_counterexample :
    kiss99Device (openclKissLogic true) ⟨1, 1, 1, 1⟩ ≠ Kiss99.rnd ⟨1, 1, 1, 1⟩ := by
  decide

set_option maxRecDepth 8000 in
/-- Claim C3, amended: the CUDA generator substitutes one KISS99 update
fragment for every variant (`jcong` first, `jsr` shifts 17, 13, 5),
and that fragment computes bit-for-bit the same sequence as the
host-side `Kiss99::rnd`; the OpenCL generator substitutes a
Zano-specific fragment when the variant is Zano and the common
fragment otherwise; the common fragment computes the host sequence
bit-for-bit, but the Zano-specific fragment (whose `jsr` shifts are
13, 17, 5 instead of the host's 17, 13, 5) does not. -/
theorem C3_kiss99_fragments :
    (∀ isZano : Bool, ∀ st : Kiss99, kiss99Device cudaKissLogic st = st.rnd
      ∧ (openclKissLogic isZano
          = if isZano then openclZanoKissLogic else openclCommonKissLogic))
    ∧ (∀ st : Kiss99, kiss99Device (openclKissLogic false) st = st.rnd)
    ∧ kiss99Device (openclKissLogic true) ⟨1, 1, 1, 1⟩ ≠ Kiss99.rnd ⟨1, 1, 1, 1⟩ := by
  refine ⟨fun isZano st => ⟨?_, rfl⟩, fun st => ?_, by decide⟩ <;>
    · cases st with
      | mk z w jsr jcong =>
        simp [kiss99Device, cudaKissLogic, openclKissLogic,
          openclCommonKissLogic, Kiss99.rnd, Nat.mul_comm]

/-- `cuda_swab32` from the CUDA kernel template
(src/src/generator.rs lines 771-778). -/
def cuda_swab32 (x : Nat) : Nat :=
  ((x &&& 0xFF) <<< 24) ||| ((x &&& 0xFF00) <<< 8)
    ||| ((x &&& 0xFF0000) >>> 8) ||| ((x &&& 0xFF000000) >>> 24)

/-- The hash-seed extraction fragment substituted by
`generate_cuda_kernel` (src/src/generator.rs lines 164-176), applied to
words 0 and 1 of the permuted state: when `P::SEED_BYTE_SWAP`,
`hash_seed_small[0] = cuda_swab32(state2[1])` and `hash_seed_small[1] =
cuda_swab32(state2[0])`; otherwise the words are used directly. -/
def cudaHashSeedExtract (seedByteSwap : Bool) (state2_0 state2_1 : Nat) : Nat × Nat :=
  if seedByteSwap then (cuda_swab32 state2_1, cuda_swab32 state2_0)
  else (state2_0, state2_1)

/-- The hash-seed extraction in the static OpenCL template
(src/src/generator.rs lines 1232-1234): always `hash_seed[0] =
state2[0]; hash_seed[1] = state2[1]`, with no byte-swap branch and no
substitution point. -/
def openclHashSeedExtract (state2_0 state2_1 : Nat) : Nat × Nat :=
  (state2_0, state2_1)

/-- The seed-extraction policy as the claim states it: byte-swap each
word and swap their order when the variant's byte-swap flag is set,
otherwise use words 0 and 1 directly. -/
def specSeedExtract (seedByteSwap : Bool) (s0 s1 : Nat) : Nat × Nat :=
  if seedByteSwap then (cuda_swab32 s1, cuda_swab32 s0) else (s0, s1)

/-- Claim C4 as stated is false for the OpenCL dialect: the static
OpenCL template extracts the seed words directly even when the
variant's byte-swap flag is set. -/
theorem C4_counterexample :
    openclHashSeedExtract 0 1 ≠ specSeedExtract true 0 1 := by decide

/-- Claim C4, amended: the CUDA generator's seed-extraction fragment
takes words 0-1 of the permuted Keccak state and follows the claimed
policy (byte-swap each word and swap their order when the byte-swap
flag is set, otherwise use them directly in order); the OpenCL static
template instead always uses state words 0 and 1 directly, regardless
of the flag. -/
theorem C4_seed_extract :
    (∀ (seedByteSwap : Bool) (s0 s1 : Nat),
      cudaHashSeedExtract seedByteSwap s0 s1 = specSeedExtract seedByteSwap s0 s1)
    ∧ (∀ (seedByteSwap : Bool) (s0 s1 : Nat),
      openclHashSeedExtract s0 s1 = (s0, s1)) :=
  ⟨fun _ _ _ => rfl, fun _ _ _ => rfl⟩

/-- Per-variant parameter flags of the `progpow_base` crate.  Modelled
from the spec: the variant parameter set carries "a flag indicating
fixed non-Keccak padding words are injected (Ravencoin)", the math
mapping selector, and "a flag indicating the seed words must be
byte-swapped and order-reversed before kernel seeding (Zano-style)". -/
structure VariantParams where
  hasRavencoinRndc : Bool
  mathMapping : MathMapping
  seedByteSwap : Bool
deriving DecidableEq

/-- Modelled from the spec: the standard ProgPoW variant (no Ravencoin
padding table, standard math mapping, no seed byte-swap). -/
def standardParams : VariantParams := ⟨false, .standard, false⟩

/-- Modelled from the spec: the KawPow / Ravencoin variant (fixed
non-Keccak padding table injected, KawPow math mapping, no seed
byte-swap). -/
def kawPowParams : VariantParams := ⟨true, .kawpow, false⟩

/-- Modelled from the spec: the Zano variant (zero-fill padding, Zano
math mapping, byte-swapped and order-reversed seed words). -/
def zanoParams : VariantParams := ⟨false, .zano, true⟩

/-- `is_zano` as computed by `generate_cuda_kernel`
(src/src/generator.rs line 122): the math mapping equals
`MathMapping::Zano`. -/
def isZanoVariant (v : VariantParams) : Bool := v.mathMapping == MathMapping.zano

/-- The three padding fragments of `generate_cuda_kernel`
(src/src/generator.rs lines 135-143). -/
inductive PaddingPolicy where
  | ravencoin
  | zanoZero
  | standardPad
deriving DecidableEq

/-- The padding fragment selection of `generate_cuda_kernel`
(src/src/generator.rs lines 135-143): the Ravencoin table fragment when
`P::HAS_RAVENCOIN_RNDC`, else the zero-fill fragment when the variant
is Zano, else the standard Keccak padding fragment. -/
def cudaPaddingPolicy (v : VariantParams) : PaddingPolicy :=
  if v.hasRavencoinRndc then .ravencoin
  else if isZanoVariant v then .zanoZero
  else .standardPad

/-- `ravencoin_rndc` from the CUDA kernel template
(src/src/generator.rs lines 644-649). -/
def ravencoin_rndc : List Nat :=
  [0x72, 0x41, 0x56, 0x45, 0x4E, 0x43, 0x4F, 0x49, 0x4E,
    0x4B, 0x41, 0x57, 0x50, 0x4F, 0x57]

/-- Semantics of the three padding fragments on the 25-word state:
the Ravencoin fragment runs `for (i = 10; i < 25; i++) state[i] =
ravencoin_rndc[i-10]`; the Zano fragment zero-fills words 10-24; the
standard fragment zero-fills words 10-24 and then sets `state[10] =
0x00000001` and `state[18] = 0x80008081`. -/
def applyPadding : PaddingPolicy → (Nat → Nat) → Nat → Nat
  | .ravencoin, st => fun i =>
      if 10 ≤ i ∧ i < 25 then ravencoin_rndc.getD (i - 10) 0 else st i
  | .zanoZero, st => fun i =>
      if 10 ≤ i ∧ i < 25 then 0 else st i
  | .standardPad, st => fun i =>
      if i = 10 then 0x00000001
      else if i = 18 then 0x80008081
      else if 10 ≤ i ∧ i < 25 then 0 else st i

/-- Claim C5: for every variant, the initial-padding fragment follows
exactly one of three mutually exclusive policies determined by the
variant's flags: Ravencoin-flagged variants fill state words 10-24
from the fixed non-Keccak table, the Zano variant zero-fills words
10-24, and all other variants zero-fill words 10-24 and then set word
10 to `0x00000001` and word 18 to `0x80008081`. -/
theorem C5_padding_policy (v : VariantParams)
    (hv : v = standardParams ∨ v = kawPowParams ∨ v = zanoParams) :
    (v.hasRavencoinRndc = true →
      cudaPaddingPolicy v = .ravencoin
      ∧ ∀ (st : Nat → Nat) (i : Nat), 10 ≤ i → i < 25 →
          applyPadding (cudaPaddingPolicy v) st i = ravencoin_rndc.getD (i - 10) 0)
    ∧ (isZanoVariant v = true →
      cudaPaddingPolicy v = .zanoZero
      ∧ ∀ (st : Nat → Nat) (i : Nat), 10 ≤ i → i < 25 →
          applyPadding (cudaPaddingPolicy v) st i = 0)
    ∧ (v.hasRavencoinRndc = false → isZanoVariant v = false →
      cudaPaddingPolicy v = .standardPad
      ∧ ∀ st : Nat → Nat,
          applyPadding (cudaPaddingPolicy v) st 10 = 0x00000001
          ∧ applyPadding (cudaPaddingPolicy v) st 18 = 0x80008081
          ∧ ∀ i : Nat, 10 ≤ i → i < 25 → i ≠ 10 → i ≠ 18 →
              applyPadding (cudaPaddingPolicy v) st i = 0) := by
  rcases hv with rfl | rfl | rfl
  · refine ⟨fun h => absurd h (by decide), fun h => absurd h (by decide),
      fun _ _ => ⟨rfl, fun st => ⟨rfl, rfl, fun i h1 h2 h3 h4 => ?_⟩⟩⟩
    show (if i = 10 then 0x00000001 else if i = 18 then 0x80008081
      else if 10 ≤ i ∧ i < 25 then 0 else st i) = 0
    rw [if_neg h3, if_neg h4, if_pos ⟨h1, h2⟩]
  · refine ⟨fun _ => ⟨rfl, fun st i h1 h2 => ?_⟩,
      fun h => absurd h (by decide), fun h => absurd h (by decide)⟩
    show (if 10 ≤ i ∧ i < 25 then ravencoin_rndc.getD (i - 10) 0 else st i)
      = ravencoin_rndc.getD (i - 10) 0
    rw [if_pos ⟨h1, h2⟩]
  · refine ⟨fun h => absurd h (by decide), fun _ => ⟨rfl, fun st i h1 h2 => ?_⟩,
      fun _ h => absurd h (by decide)⟩
    show (if 10 ≤ i ∧ i < 25 then 0 else st i) = 0
    rw [if_pos ⟨h1, h2⟩]

theorem C5_witness :
    cudaPaddingPolicy zanoParams = PaddingPolicy.zanoZero ∧
      applyPadding (cudaPaddingPolicy zanoParams) (fun _ => 7) 12 = 0 ∧
      applyPadding (cudaPaddingPolicy kawPowParams) (fun _ => 7) 10 = 0x72 :=
  ⟨((C5_padding_policy zanoParams (by decide)).2.1 rfl).1,
    ((C5_padding_policy zanoParams (by decide)).2.1 rfl).2 (fun _ => 7) 12
      (by decide) (by decide),
    ((C5_padding_policy kawPowParams (by decide)).1 rfl).2 (fun _ => 7) 10
      (by decide) (by decide)⟩

/-- `enum ProgPowError` from src/src/types.rs. -/
inductive ProgPowError where
  | NO_INITIALIZED
  | DAG
  | CACHE
deriving DecidableEq

/-- Outcome of a Rust function that can panic: either a panic (from
`.unwrap()` on an `Err`) or a returned `Result`. -/
inductive VerifyOutcome (ε α : Type) where
  | panicked
  | returned (r : Except ε α)

/-- Environment of `PpCPU::verify`: the fallible collaborators it calls.
`getCachePath` is `get_cache_path()` (a `Result<PathBuf, io::Error>`),
`lightFromFile` is `NodeCacheBuilder::light_from_file`, `lightBuild` is
`NodeCacheBuilder::light` (infallible: it returns a cache directly),
`lightToFile` is `Light::to_file`, and `compute` is
`light.compute(header_hash, nonce, height)`.  The bodies of these
collaborators live in the `progpow_cpu` crate, outside `src/`, so they
are abstracted as fields. -/
structure PpCpuEnv (Path Light : Type) where
  getCachePath : Except Unit Path
  lightFromFile : Path → Nat → Except Unit Light
  lightBuild : Path → Nat → Light
  lightToFile : Light → Except Unit Unit
  compute : Light → Nat → Nat → Nat → (List Nat × List Nat)

/-- `PpCPU::verify` (src/src/hardware/cpu.rs lines 50-74):
`get_cache_path().unwrap()` (panics on error), then try
`light_from_file(path, height)`; on any load error build a fresh cache
with `light(path, height)` and attempt `to_file()`, whose error is only
printed; finally return `Ok(light.compute(header_hash, nonce,
height))`. -/
def PpCPU_verify {Path Light : Type} (env : PpCpuEnv Path Light)
    (header height nonce : Nat) :
    VerifyOutcome ProgPowError (List Nat × List Nat) :=
  match env.getCachePath with
  | .error _ => .panicked
  | .ok pathCache =>
    let light :=
      match env.lightFromFile pathCache height with
      | .ok l => l
      | .error _ =>
        let l := env.lightBuild pathCache height
        match env.lightToFile l with
        | .error _ => l
        | .ok _ => l
    .returned (.ok (env.compute light header nonce height))

/-- Claim C7 as stated is false in its failure clause: when the cache
directory path cannot be obtained (the only failure point once loading
falls back to building), `PpCPU::verify` panics on
`get_cache_path().unwrap()` instead of failing with a
storage/configuration error. -/
theorem C7_counterexample :
    PpCPU_verify
      (⟨.error (), fun _ _ => .error (), fun _ _ => 0, fun _ => .ok (),
        fun _ _ _ _ => ([], [])⟩ : PpCpuEnv Nat Nat) 0 0 0 = .panicked := rfl

/-- Claim C7, amended: `PpCPU::verify` first attempts to load the
persisted cache for the height; on any load failure it builds a fresh
cache and attempts to persist it, and a persistence (write) failure is
only logged, `verify` still returning `Ok` with the computed
`(result, mix)` pair; the body constructs no `Err` value at all, and
when the cache path cannot be obtained `verify` panics on `.unwrap()`
rather than returning a storage/configuration error. -/
theorem C7_verify_control_flow {Path Light : Type}
    (env : PpCpuEnv Path Light) (header height nonce : Nat) :
    (∀ path, env.getCachePath = .ok path →
      (∀ l, env.lightFromFile path height = .ok l →
        PpCPU_verify env header height nonce
          = .returned (.ok (env.compute l header nonce height)))
      ∧ (env.lightFromFile path height = .error () →
        PpCPU_verify env header height nonce
          = .returned (.ok (env.compute (env.lightBuild path height)
              header nonce height))))
    ∧ (∀ e : ProgPowError,
        PpCPU_verify env header height nonce ≠ .returned (.error e))
    ∧ (env.getCachePath = .error () →
        PpCPU_verify env header height nonce = .panicked) := by
  refine ⟨fun path hpath => ⟨fun l hl => ?_, fun hl => ?_⟩, fun e => ?_, fun h => ?_⟩
  · simp only [PpCPU_verify, hpath, hl]
  · simp only [PpCPU_verify, hpath, hl]
    cases h2 : env.lightToFile (env.lightBuild path height) <;> simp [h2]
  · unfold PpCPU_verify
    cases hp : env.getCachePath with
    | error u => simp
    | ok path => cases env.lightFromFile path height <;> simp
  · simp only [PpCPU_verify, h]

theorem C7_witness :
    PpCPU_verify
      (⟨.ok 0, fun _ _ => .error (), fun _ _ => 7, fun _ => .error (),
        fun l h n ht => ([l, h, n, ht], [l])⟩ : PpCpuEnv Nat Nat) 3 4 5
      = .returned (.ok ([7, 3, 5, 4], [7])) :=
  ((C7_verify_control_flow
      (⟨.ok 0, fun _ _ => .error (), fun _ _ => 7, fun _ => .error (),
        fun l h n ht => ([l, h, n, ht], [l])⟩ : PpCpuEnv Nat Nat) 3 4 5).1 0 rfl).2 rfl

/-- `enum Driver` from src/pp_full/src/types.rs. -/
inductive Driver where
  | cuda
  | ocl
deriving DecidableEq

/-- `struct GPU` from src/pp_full/src/types.rs: the `miner` field holds
the native handle once `init` has been called (`None` before). -/
structure GPU where
  driver : Driver
  device : Nat
  miner : Option Nat
deriving DecidableEq

/-- Native-backend entry points reachable from `GPU::compute` /
`GPU::solutions` (src/pp_full/src/ffi.rs); the embeddings record which
of them a call invokes. -/
inductive FfiCall where
  | gpuCompute
  | gpuGetSolutions
deriving DecidableEq

/-- `GPU::compute` (src/pp_full/src/types.rs lines 52-78): if `miner`
is `None`, return `Err("Miner is not initialized")` before any FFI
call; otherwise invoke `progpow_gpu_compute` and return `Ok(())`.  The
receiver is `&self`, so the returned handle state is the input state;
the second component records the FFI calls made. -/
def GPU_compute (g : GPU) (hash : List Nat)
    (height : Nat) (epoch : Nat) (target startNonce : Nat) :
    GPU × List FfiCall × Except String Unit :=
  match g.miner with
  | none => (g, [], .error "Miner is not initialized")
  | some _ => (g, [.gpuCompute], .ok ())

/-- `GPU::solutions` (src/pp_full/src/types.rs lines 80-104): if
`miner` is `None`, return `Err("Miner is not initialized")` before any
FFI call; otherwise invoke `progpow_gpu_get_solutions` (abstracted as
`ffiSolutions`) and return its optional `(nonce, mix)` finding. -/
def GPU_solutions (ffiSolutions : Nat → Option (Nat × List Nat)) (g : GPU) :
    GPU × List FfiCall × Except String (Option (Nat × List Nat)) :=
  match g.miner with
  | none => (g, [], .error "Miner is not initialized")
  | some m => (g, [.gpuGetSolutions], .ok (ffiSolutions m))

/-- Claim C8: on a GPU handle whose `miner` field is `None` (init not
called), both `GPU::compute` and `GPU::solutions` return the
`"Miner is not initialized"` error without invoking any native-backend
function and without modifying the handle's state; the error is
returned to the caller, not retried. -/
theorem C8_uninitialized_miner (g : GPU) (hg : g.miner = none)
    (hash : List Nat) (height epoch target startNonce : Nat)
    (ffiSolutions : Nat → Option (Nat × List Nat)) :
    GPU_compute g hash height epoch target startNonce
      = (g, [], .error "Miner is not initialized")
    ∧ GPU_solutions ffiSolutions g
      = (g, [], .error "Miner is not initialized") := by
  unfold GPU_compute GPU_solutions
  rw [hg]
  exact ⟨rfl, rfl⟩

theorem C8_witness :
    GPU_compute ⟨Driver.ocl, 0, none⟩ [] 1 0 100 0
      = (⟨Driver.ocl, 0, none⟩, [], .error "Miner is not initialized")
    ∧ GPU_solutions (fun _ => none) ⟨Driver.ocl, 0, none⟩
      = (⟨Driver.ocl, 0, none⟩, [], .error "Miner is not initialized") :=
  C8_uninitialized_miner ⟨Driver.ocl, 0, none⟩ rfl [] 1 0 100 0 (fun _ => none)

/-- `PROGPOW_CACHE_WORDS` from src/src/lib.rs. -/
def PROGPOW_CACHE_WORDS : Nat := 4096

/-- `generate_cdag` (src/src/lib.rs lines 13-22): starting from a
zeroed 4096-word array, for each `i` below `PROGPOW_CACHE_WORDS / 16`
compute a dataset item and write its 16 words at positions
`i * 16 + j`.  The dataset-item function `calculate_dag_item(i, cache)`
lives in the `progpow_base` crate, outside `src/`; it is abstracted as
`calcDagItem`, where `calcDagItem i j` is word `j` of the item at
index `i`.  The array is modelled as a function from word index to
value. -/
def generate_cdag (calcDagItem : Nat → Nat → Nat) : Nat → Nat :=
  (List.range (PROGPOW_CACHE_WORDS / 16)).foldl
    (fun cdag i =>
      (List.range 16).foldl
        (fun cdag2 j => fun k => if k = i * 16 + j then calcDagItem i j else cdag2 k)
        cdag)
    (fun _ => 0)

theorem generate_cdag_inner (calcDagItem : Nat → Nat → Nat) (i : Nat)
    (cdag : Nat → Nat) (m : Nat) (k : Nat) :
    ((List.range m).foldl
        (fun cdag2 j => fun k' => if k' = i * 16 + j then calcDagItem i j else cdag2 k')
        cdag) k
      = if i * 16 ≤ k ∧ k < i * 16 + m then calcDagItem i (k - i * 16) else cdag k := by
  induction m with
  | zero =>
    simp only [List.range_zero, List.foldl_nil]
    have h : ¬(i * 16 ≤ k ∧ k < i * 16 + 0) := by omega
    rw [if_neg h]
  | succ n ih =>
    simp only [List.range_succ, List.foldl_append, List.foldl_cons, List.foldl_nil]
    by_cases hk : k = i * 16 + n
    · subst hk
      clear ih
      have h1 : i * 16 ≤ i * 16 + n ∧ i * 16 + n < i * 16 + (n + 1) := by omega
      have h2 : i * 16 + n - i * 16 = n := by omega
      rw [if_pos rfl, if_pos h1, h2]
    · rw [if_neg hk, ih]
      clear ih
      by_cases h1 : i * 16 ≤ k ∧ k < i * 16 + n
      · have h2 : i * 16 ≤ k ∧ k < i * 16 + (n + 1) := by omega
        rw [if_pos h1, if_pos h2]
      · have h2 : ¬(i * 16 ≤ k ∧ k < i * 16 + (n + 1)) := by omega
        rw [if_neg h1, if_neg h2]

theorem generate_cdag_outer (calcDagItem : Nat → Nat → Nat) (m : Nat) (k : Nat) :
    ((List.range m).foldl
        (fun cdag i =>
          (List.range 16).foldl
            (fun cdag2 j => fun k' => if k' = i * 16 + j then calcDagItem i j else cdag2 k')
            cdag)
        (fun _ => 0)) k
      = if k < m * 16 then calcDagItem (k / 16) (k % 16) else 0 := by
  induction m with
  | zero =>
    simp only [List.range_zero, List.foldl_nil]
    have h : ¬(k < 0 * 16) := by omega
    rw [if_neg h]
  | succ n ih =>
    rw [show List.range (n + 1) = List.range n ++ [n] from List.range_succ n]
    simp only [List.foldl_append, List.foldl_cons, List.foldl_nil]
    rw [generate_cdag_inner]
    by_cases h1 : n * 16 ≤ k ∧ k < n * 16 + 16
    · clear ih
      have h2 : k < (n + 1) * 16 := by omega
      have hdiv : k / 16 = n := by omega
      have hmod : k % 16 = k - n * 16 := by omega
      rw [if_pos h1, if_pos h2, hdiv, hmod]
    · rw [if_neg h1, ih]
      clear ih
      by_cases h2 : k < n * 16
      · have h3 : k < (n + 1) * 16 := by omega
        rw [if_pos h2, if_pos h3]
      · have h3 : ¬(k < (n + 1) * 16) := by omega
        rw [if_neg h2, if_neg h3]

/-- Claim C9: for every light cache (presented through its dataset-item
function), the 4096-word L1 cache returned by `generate_cdag` is the
concatenation of the first 256 dataset items in index order: for every
`k < 4096`, output word `k` equals word `k % 16` of
`calculate_dag_item(k / 16, cache)`. -/
theorem C9_generate_cdag (calcDagItem : Nat → Nat → Nat) (k : Nat)
    (hk : k < 4096) :
    generate_cdag calcDagItem k = calcDagItem (k / 16) (k % 16) := by
  unfold generate_cdag PROGPOW_CACHE_WORDS
  rw [show (4096 / 16 : Nat) = 256 from rfl, generate_cdag_outer,
    if_pos (by omega)]

theorem C9_witness :
    37 < 4096 ∧ generate_cdag (fun i j => i * 100 + j) 37 = 205 :=
  ⟨by omega, by rw [C9_generate_cdag (fun i j => i * 100 + j) 37 (by omega)]⟩

/-- `u32::leading_zeros`, used by `calculate_fast_mod_data`: `32`
minus the bit length, i.e. `31 - log2 d` for `d >= 1`. -/
def leading_zeros (d : Nat) : Nat := if d = 0 then 32 else 31 - Nat.log2 d

/-- `calculate_fast_mod_data` (src/src/generator.rs lines 276-299):
returns `(reciprocal, increment, shift)`.  For a power-of-two divisor,
`(1, 0, log2 divisor)`; otherwise `shift = 63 - leading_zeros`,
`n = 1 << shift`, `q = n / divisor`, `r = n - q * divisor`, rounding
down with increment 1 when `r * 2 < divisor` and up with increment 0
otherwise. -/
def calculate_fast_mod_data (divisor : Nat) : Nat × Nat × Nat :=
  if divisor &&& (divisor - 1) = 0 then
    (1, 0, 31 - leading_zeros divisor)
  else
    let shift := 63 - leading_zeros divisor
    let n := 1 <<< shift
    let q := n / divisor
    let r := n - q * divisor
    if r * 2 < divisor then (q, 1, shift) else (q + 1, 0, shift)

/-- The shape of the offset-reduction fragment emitted by
`generate_cuda_kernel` (src/src/generator.rs lines 73-100): a bitmask,
or a multiply-high reduction with or without the `offset + increment`
preamble. -/
inductive ModFragment where
  | maskFrag (m : Nat)
  | withIncrement (inc rcp shiftM32 dagElements : Nat)
  | noIncrement (rcp shiftM32 dagElements : Nat)
deriving DecidableEq

/-- The `mod_logic` emission of `generate_cuda_kernel`
(src/src/generator.rs lines 73-100): `offset &= dag_elements - 1` when
`dag_elements` is a power of two, otherwise the `__umulhi`-based
reduction built from `calculate_fast_mod_data`, with the `offset + i`
preamble exactly when the increment is nonzero. -/
def cudaModLogic (dagElements : Nat) : ModFragment :=
  if dagElements &&& (dagElements - 1) = 0 then
    .maskFrag (dagElements - 1)
  else
    let t := calculate_fast_mod_data dagElements
    if t.2.1 ≠ 0 then .withIncrement t.2.1 t.1 (t.2.2 - 32) dagElements
    else .noIncrement t.1 (t.2.2 - 32) dagElements

theorem pow2_land_pred (k : Nat) : 2 ^ k &&& (2 ^ k - 1) = 0 := by
  apply Nat.eq_of_testBit_eq
  intro i
  rw [Nat.testBit_land, Nat.zero_testBit, Nat.testBit_two_pow,
    Nat.testBit_two_pow_sub_one]
  by_cases h : k = i
  · subst h; simp
  · simp [h]

theorem pow2_of_land_pred_eq_zero :
    ∀ d, 1 ≤ d → d &&& (d - 1) = 0 → ∃ k, d = 2 ^ k := by
  intro d
  induction d using Nat.strong_induction_on with
  | _ d ih =>
    intro hd h
    rcases Nat.even_or_odd d with ⟨e, he⟩ | ho
    · subst he
      have he1 : 1 ≤ e := by omega
      have key : e &&& (e - 1) = 0 := by
        apply Nat.eq_of_testBit_eq
        intro i
        rw [Nat.zero_testBit, Nat.testBit_land]
        have hb := congrArg (fun x => x.testBit (i + 1)) h
        simp only [Nat.zero_testBit] at hb
        rw [Nat.testBit_land, Nat.testBit_succ, Nat.testBit_succ] at hb
        have h1 : (e + e) / 2 = e := by omega
        have h2 : (e + e - 1) / 2 = e - 1 := by omega
        rw [h1, h2] at hb
        exact hb
      obtain ⟨k, hk⟩ := ih e (by omega) he1 key
      refine ⟨k + 1, ?_⟩
      rw [pow_succ, hk]
      ring
    · by_cases h1 : d = 1
      · exact ⟨0, by simp [h1]⟩
      · exfalso
        have hd0 : d ≠ 0 := by omega
        have hp1 : 2 ^ Nat.log2 d ≤ d := Nat.log2_self_le hd0
        have hp2 : d < 2 ^ (Nat.log2 d + 1) := (Nat.log2_lt hd0).mp (Nat.lt_succ_self _)
        have hpow : 2 ^ (Nat.log2 d + 1) = 2 * 2 ^ Nat.log2 d := by
          rw [pow_succ]; ring
        have hodd : d % 2 = 1 := Nat.odd_iff.mp ho
        have hne : d ≠ 2 ^ Nat.log2 d := by
          intro hdp
          rcases Nat.eq_zero_or_pos (Nat.log2 d) with hp0 | hp0
          · rw [hp0] at hdp; simp at hdp; exact h1 hdp
          · have h2 : 2 ^ Nat.log2 d % 2 = 0 := by
              have : (2 : Nat) ∣ 2 ^ Nat.log2 d := dvd_pow_self 2 (by omega)
              omega
            rw [hdp] at hodd
            omega
        have ht1 : d.testBit (Nat.log2 d) = true := by
          rw [Nat.testBit_to_div_mod]
          have hq : d / 2 ^ Nat.log2 d = 1 := by
            apply Nat.div_eq_of_lt_le <;> omega
          rw [hq]
          rfl
        have ht2 : (d - 1).testBit (Nat.log2 d) = true := by
          rw [Nat.testBit_to_div_mod]
          have hq : (d - 1) / 2 ^ Nat.log2 d = 1 := by
            apply Nat.div_eq_of_lt_le <;> omega
          rw [hq]
          rfl
        have hb := congrArg (fun x => x.testBit (Nat.log2 d)) h
        simp only [Nat.zero_testBit, Nat.testBit_land, ht1, ht2] at hb
        exact absurd hb (by decide)

theorem land_pred_eq_zero_iff (d : Nat) (hd : 1 ≤ d) :
    d &&& (d - 1) = 0 ↔ ∃ k, d = 2 ^ k := by
  constructor
  · exact pow2_of_land_pred_eq_zero d hd
  · rintro ⟨k, rfl⟩
    exact pow2_land_pred k

theorem cfmd_else (d : Nat) (hd2 : 2 ≤ d) (hd32 : d < 2 ^ 32)
    (hnp : ¬d &&& (d - 1) = 0) :
    calculate_fast_mod_data d
      = (if (2 ^ (32 + Nat.log2 d) % d) * 2 < d
         then (2 ^ (32 + Nat.log2 d) / d, 1, 32 + Nat.log2 d)
         else (2 ^ (32 + Nat.log2 d) / d + 1, 0, 32 + Nat.log2 d)) := by
  have hd0 : d ≠ 0 := by omega
  have hlog : Nat.log2 d < 32 := (Nat.log2_lt hd0).mpr hd32
  have hlz : leading_zeros d = 31 - Nat.log2 d := by
    unfold leading_zeros
    rw [if_neg hd0]
  have hshift : 63 - leading_zeros d = 32 + Nat.log2 d := by
    rw [hlz]; omega
  have hn : (1 : Nat) <<< (32 + Nat.log2 d) = 2 ^ (32 + Nat.log2 d) := by
    rw [Nat.shiftLeft_eq, one_mul]
  have hr : 2 ^ (32 + Nat.log2 d) - 2 ^ (32 + Nat.log2 d) / d * d
      = 2 ^ (32 + Nat.log2 d) % d := by
    have h := Nat.div_add_mod (2 ^ (32 + Nat.log2 d)) d
    rw [Nat.mul_comm] at h
    omega
  simp only [calculate_fast_mod_data, if_neg hnp]
  rw [hshift, hn, hr]

theorem fastmod_up (d p : Nat) (hp1 : 2 ^ p ≤ d) (hp2 : d < 2 ^ (p + 1))
    (hr2 : d ≤ 2 ^ (32 + p) % d * 2) :
    ∀ x, x < 2 ^ 32 →
      x * (2 ^ (32 + p) / d + 1) / 2 ^ (32 + p) = x / d := by
  intro x hx
  have hd0 : 0 < d := lt_of_lt_of_le (Nat.two_pow_pos p) hp1
  have hqr : d * (2 ^ (32 + p) / d) + 2 ^ (32 + p) % d = 2 ^ (32 + p) :=
    Nat.div_add_mod _ d
  have hxd : d * (x / d) + x % d = x := Nat.div_add_mod x d
  have hb : x % d < d := Nat.mod_lt x hd0
  have hrd : 2 ^ (32 + p) % d < d := Nat.mod_lt _ hd0
  have hn32 : (2 : Nat) ^ (32 + p) = 2 ^ 32 * 2 ^ p := pow_add 2 32 p
  have hps : (2 : Nat) ^ (p + 1) = 2 ^ p * 2 := pow_succ 2 p
  -- abbreviations
  set n := (2 : Nat) ^ (32 + p) with hn
  set q := n / d with hq
  set r := n % d with hrdef
  set a := x / d with ha
  set b := x % d with hbdef
  -- d - r, subtraction-free
  obtain ⟨dr, hdr⟩ : ∃ dr, r + dr = d := ⟨d - r, by omega⟩
  have hdrtp : dr < 2 ^ p := by omega
  have hA : x * dr < n := by
    calc x * dr < 2 ^ 32 * 2 ^ p :=
          mul_lt_mul'' hx hdrtp (Nat.zero_le _) (Nat.zero_le _)
      _ = n := hn32.symm
  have hB : x + 1 ≤ (a + 1) * d := by
    have : (a + 1) * d = d * a + d := by ring
    omega
  refine Nat.div_eq_of_lt_le ?_ ?_
  · -- a * n ≤ x * (q + 1)
    have e1 : a * d ≤ x := Nat.div_mul_le_self x d
    calc a * n = a * (d * q + r) := by rw [hqr]
      _ = a * d * q + a * r := by ring
      _ ≤ a * d * q + a * d := by
          have : a * r ≤ a * d := Nat.mul_le_mul_left a (le_of_lt hrd)
          omega
      _ = (a * d) * (q + 1) := by ring
      _ ≤ x * (q + 1) := Nat.mul_le_mul_right _ e1
  · -- x * (q + 1) < (a + 1) * n
    have hxdr : x * d < x * r + n := by
      have : x * d = x * r + x * dr := by rw [← hdr]; ring
      omega
    have e2 : x * (q + 1) * d + x * r = x * n + x * d := by
      calc x * (q + 1) * d + x * r = x * (d * q + r) + x * d := by ring
        _ = x * n + x * d := by rw [hqr]
    have e3 : (x + 1) * n ≤ (a + 1) * d * n := Nat.mul_le_mul_right n hB
    have e4 : (a + 1) * d * n = (a + 1) * n * d := by ring
    have e5 : (x + 1) * n = x * n + n := by ring
    have e6 : x * (q + 1) * d < (a + 1) * n * d := by omega
    exact lt_of_mul_lt_mul_right e6 (Nat.zero_le d)

theorem fastmod_down (d p : Nat) (hp1 : 2 ^ p ≤ d) (hp2 : d < 2 ^ (p + 1))
    (hr2 : 2 ^ (32 + p) % d * 2 < d) (hrne : 2 ^ (32 + p) % d ≠ 0) :
    ∀ x, x < 2 ^ 32 →
      (x + 1) * (2 ^ (32 + p) / d) / 2 ^ (32 + p) = x / d := by
  intro x hx
  have hd0 : 0 < d := lt_of_lt_of_le (Nat.two_pow_pos p) hp1
  have hqr : d * (2 ^ (32 + p) / d) + 2 ^ (32 + p) % d = 2 ^ (32 + p) :=
    Nat.div_add_mod _ d
  have hxd : d * (x / d) + x % d = x := Nat.div_add_mod x d
  have hb : x % d < d := Nat.mod_lt x hd0
  have hn32 : (2 : Nat) ^ (32 + p) = 2 ^ 32 * 2 ^ p := pow_add 2 32 p
  have hps : (2 : Nat) ^ (p + 1) = 2 ^ p * 2 := pow_succ 2 p
  have ht32 : (1 : Nat) ≤ 2 ^ 32 := Nat.one_le_two_pow
  have htp : (1 : Nat) ≤ 2 ^ p := Nat.one_le_two_pow
  set n := (2 : Nat) ^ (32 + p) with hn
  set q := n / d with hq
  set r := n % d with hrdef
  set a := x / d with ha
  set b := x % d with hbdef
  have hrtp : r < 2 ^ p := by omega
  have hB : x + 1 ≤ (a + 1) * d := by
    have : (a + 1) * d = d * a + d := by ring
    omega
  have hxr : (x + 1) * r ≤ 2 ^ 32 * (2 ^ p - 1) := by
    exact Nat.mul_le_mul (by omega) (by omega)
  have hf3 : 2 ^ 32 * (2 ^ p - 1) + 2 ^ 32 * 1 = 2 ^ 32 * 2 ^ p := by
    rw [← Nat.mul_add]
    congr 1
    omega
  have hxrn : (x + 1) * r < n := by omega
  refine Nat.div_eq_of_lt_le ?_ ?_
  · -- a * n ≤ (x + 1) * q
    have e1 : a * d ≤ x := Nat.div_mul_le_self x d
    have f1 : a * d * n ≤ x * n := Nat.mul_le_mul_right n e1
    have f4 : (x + 1) * (q * d) + (x + 1) * r = (x + 1) * n := by
      calc (x + 1) * (q * d) + (x + 1) * r = (x + 1) * (d * q + r) := by ring
        _ = (x + 1) * n := by rw [hqr]
    have f5 : (x + 1) * n = x * n + n := by ring
    have f6 : a * n * d = a * d * n := by ring
    have goal' : a * n * d ≤ (x + 1) * (q * d) := by omega
    have goal'' : (a * n) * d ≤ ((x + 1) * q) * d := by
      have : ((x + 1) * q) * d = (x + 1) * (q * d) := by ring
      omega
    exact Nat.le_of_mul_le_mul_right goal'' hd0
  · -- (x + 1) * q < (a + 1) * n
    have hqd : q * d < n := by
      have h := hqr
      have : d * q = q * d := by ring
      omega
    have g1 : (x + 1) * (q * d) ≤ (a + 1) * d * (q * d) :=
      Nat.mul_le_mul_right _ hB
    have g2 : (a + 1) * d * (q * d) < (a + 1) * d * n :=
      mul_lt_mul_of_pos_left hqd (by positivity)
    have g3 : ((x + 1) * q) * d < ((a + 1) * n) * d := by
      have b1 : ((x + 1) * q) * d = (x + 1) * (q * d) := by ring
      have b2 : ((a + 1) * n) * d = (a + 1) * d * n := by ring
      omega
    exact lt_of_mul_lt_mul_right g3 (Nat.zero_le d)



/-- Claim C2, amended: for every 32-bit divisor `d >= 2`: the generator
branch test `d & (d-1) == 0` holds exactly for the powers of two, and
in that case the emitted fragment is the bitmask reduction with mask
`d - 1`; for every non-power-of-two `d`, the triple
`(reciprocal, increment, shift)` returned by `calculate_fast_mod_data`
has the reciprocal rounded up (with increment 0) when the fixed-point
remainder `2^shift mod d` exceeds half the divisor and rounded down
with compensating increment 1 otherwise, and it satisfies
`floor(x / d) = ((x + increment) * reciprocal) >> shift` for every `x`
in `[0, 2^32)` (rather than the claimed `[0, d * 2^16)`, which fails
for dataset-item counts at and above `2^16` once `x` exceeds
`2^32`). -/
theorem C2_fast_mod (d : Nat) (hd2 : 2 ≤ d) (hd32 : d < 2 ^ 32) :
    (d &&& (d - 1) = 0 ↔ ∃ k, d = 2 ^ k)
    ∧ (d &&& (d - 1) = 0 → cudaModLogic d = .maskFrag (d - 1))
    ∧ (d &&& (d - 1) ≠ 0 →
        (d < 2 ^ (calculate_fast_mod_data d).2.2 % d * 2 →
          calculate_fast_mod_data d
            = (2 ^ (calculate_fast_mod_data d).2.2 / d + 1, 0,
                (calculate_fast_mod_data d).2.2))
        ∧ (2 ^ (calculate_fast_mod_data d).2.2 % d * 2 < d →
          calculate_fast_mod_data d
            = (2 ^ (calculate_fast_mod_data d).2.2 / d, 1,
                (calculate_fast_mod_data d).2.2))
        ∧ ∀ x, x < 2 ^ 32 →
            ((x + (calculate_fast_mod_data d).2.1) * (calculate_fast_mod_data d).1)
              >>> (calculate_fast_mod_data d).2.2 = x / d) := by
  refine ⟨land_pred_eq_zero_iff d (by omega), fun hp => ?_, fun hnp => ?_⟩
  · unfold cudaModLogic
    rw [if_pos hp]
  · have hcf := cfmd_else d hd2 hd32 hnp
    have hd0 : d ≠ 0 := by omega
    have hp1 : 2 ^ Nat.log2 d ≤ d := Nat.log2_self_le hd0
    have hp2 : d < 2 ^ (Nat.log2 d + 1) := (Nat.log2_lt hd0).mp (Nat.lt_succ_self _)
    have hrne : 2 ^ (32 + Nat.log2 d) % d ≠ 0 := by
      intro h0
      obtain ⟨i, _, hdi⟩ :=
        (Nat.dvd_prime_pow Nat.prime_two).mp (Nat.dvd_of_mod_eq_zero h0)
      exact hnp ((land_pred_eq_zero_iff d (by omega)).mpr ⟨i, hdi⟩)
    by_cases hc : 2 ^ (32 + Nat.log2 d) % d * 2 < d
    · rw [if_pos hc] at hcf
      refine ⟨fun hgt => ?_, fun _ => ?_, fun x hx => ?_⟩
      · rw [hcf] at hgt
        have hgt2 : d < 2 ^ (32 + Nat.log2 d) % d * 2 := hgt
        exact absurd hgt2 (by omega)
      · rw [hcf]
      · rw [hcf, Nat.shiftRight_eq_div_pow]
        exact fastmod_down d (Nat.log2 d) hp1 hp2 hc hrne x hx
    · rw [if_neg hc] at hcf
      refine ⟨fun _ => ?_, fun hlt => ?_, fun x hx => ?_⟩
      · rw [hcf]
      · rw [hcf] at hlt
        have hlt2 : 2 ^ (32 + Nat.log2 d) % d * 2 < d := hlt
        exact absurd hlt2 (by omega)
      · rw [hcf, Nat.shiftRight_eq_div_pow]
        have h0 : x + 0 = x := rfl
        rw [h0]
        exact fastmod_up d (Nat.log2 d) hp1 hp2 (by omega) x hx

theorem log2_4194313 : Nat.log2 4194313 = 22 := by
  have h1 : (22 : Nat) ≤ Nat.log2 4194313 :=
    (Nat.le_log2 (by norm_num)).mpr (by norm_num)
  have h2 : Nat.log2 4194313 < 23 :=
    (Nat.log2_lt (by norm_num)).mpr (by norm_num)
  omega

theorem cfmd_4194313 : calculate_fast_mod_data 4194313 = (4294958080, 1, 54) := by
  rw [cfmd_else 4194313 (by norm_num) (by norm_num) (by decide), log2_4194313]
  decide

/-- Claim C2 as stated is false: `d = 4194313` is a non-power-of-two
divisor in the dataset-item-count range (about 2^22 items, a roughly
1 GiB dataset), `x = 217189915766` lies in the claimed range
`[0, d * 2^16)`, yet `((x + increment) * reciprocal) >> shift` is
51781 while `floor(x / d)` is 51782. -/
theorem C2_counterexample :
    4194313 &&& (4194313 - 1) ≠ 0
    ∧ 217189915766 < 4194313 * 2 ^ 16
    ∧ ((217189915766 + (calculate_fast_mod_data 4194313).2.1)
          * (calculate_fast_mod_data 4194313).1)
        >>> (calculate_fast_mod_data 4194313).2.2
      ≠ 217189915766 / 4194313 := by
  refine ⟨by decide, by norm_num, ?_⟩
  rw [cfmd_4194313]
  decide

theorem C2_witness :
    2 ≤ 10 ∧ ((123 + (calculate_fast_mod_data 10).2.1)
        * (calculate_fast_mod_data 10).1) >>> (calculate_fast_mod_data 10).2.2
      = 123 / 10 :=
  ⟨by decide,
    ((C2_fast_mod 10 (by decide) (by decide)).2.2 (by decide)).2.2 123 (by decide)⟩


end ProgPow
